import Mathlib

/-!
Verification development for the CourseOutlinePlanner calendar layout engine.

The source under scrutiny is the frontend calendar code:
  * `CalendarGrid` (month view): builds the day-cell list with
    `eachDayOfInterval({start: startOfWeek(startOfMonth(currentDate)),
                        end: endOfWeek(endOfMonth(currentDate))})`,
    buckets events per day with `getEventsForDay`, marks cells with
    `isSameMonth(day, currentDate)`, shows `dayEvents.slice(0, 3)` and a
    "+n more" overflow element when `dayEvents.length > 3`.
  * `CalendarWeekView` (week view): builds
    `eachDayOfInterval({start: startOfWeek(currentDate), end: endOfWeek(currentDate)})`,
    buckets events per day with the same `getEventsForDay`, and positions each
    event with `getEventPosition` (top = minutes from midnight scaled by
    `HOUR_HEIGHT/60`, height = `Math.max(duration/60*HOUR_HEIGHT, 30)`).
  * `types/calendar.ts`: `CalendarEvent`, `mapBackendEventToCalendarEvent`
    (wire event to `CalendarEvent`, `end` defaulting to `start` when absent),
    and `getEventColor` (ordered case-insensitive keyword matching).

Modelling conventions:
  * A JavaScript `Date` is modelled at minute granularity as minutes since the
    Unix epoch (`ℤ`); an *Invalid Date* (`NaN` timestamp, produced by
    `new Date` on an unparseable string) is modelled as `none` in `Option ℤ`.
    All date-fns comparisons on an Invalid Date are false, and arithmetic on
    it produces `NaN`, modelled as `none`.
  * Calendar days are identified by their day number (days since 1970-01-01);
    a timestamp `t` falls on day `t / 1440` (1440 minutes per day).
  * The civil (year, month, day) view of a `Date`, which date-fns uses for
    `startOfMonth` / `endOfMonth`, is modelled by `CivilDate` together with the
    standard `daysFromCivil` conversion (the algorithm underlying civil-date
    libraries) and the Gregorian month lengths that date-fns implements.
  * date-fns `startOfWeek` / `endOfWeek` use the default convention
    `weekStartsOn = 0` (Sunday), which is what the source passes (no options).
  * date-fns `isSameMonth a b` holds exactly when `a` falls inside `b`'s
    calendar month, i.e. between `startOfMonth b` and `endOfMonth b`; the
    embedding uses that day-number interval characterisation.
  * `isToday` depends on the wall clock, not on the function inputs, and is
    outside the pure model.
-/

/-- Civil calendar date: the (year, month, day-of-month) fields of a JS `Date`.
`month` is 1-based (January = 1). -/
structure CivilDate where
  year : ℤ
  month : ℕ
  day : ℕ
deriving DecidableEq

/-- Gregorian leap-year rule, as implemented by JS `Date` / date-fns. -/
def isLeapYear (y : ℤ) : Bool :=
  (y % 4 == 0 && y % 100 != 0) || y % 400 == 0

/-- Number of days in a Gregorian month, as implemented by JS `Date` /
date-fns (`endOfMonth`). Months outside 1..12 never arise from a `Date`. -/
def daysInMonth (y : ℤ) (m : ℕ) : ℕ :=
  if m = 2 then (if isLeapYear y then 29 else 28)
  else if m = 4 ∨ m = 6 ∨ m = 9 ∨ m = 11 then 30
  else 31

/-- Day number (days since 1970-01-01) of a civil date: the standard
`days_from_civil` algorithm used by civil-calendar libraries, matching the
computation JS `Date` performs. Lean's `Int` division is Euclidean, which for
the positive divisors used here coincides with floor division, so the shifted
year `era` needs no sign guard; the other divisions act on non-negative
operands. -/
def daysFromCivil (y : ℤ) (m d : ℕ) : ℤ :=
  let y' : ℤ := if m ≤ 2 then y - 1 else y
  let era : ℤ := y' / 400
  let yoe : ℤ := y' - era * 400
  let mp : ℤ := if 2 < m then (m : ℤ) - 3 else (m : ℤ) + 9
  let doy : ℤ := (153 * mp + 2) / 5 + (d : ℤ) - 1
  let doe : ℤ := yoe * 365 + yoe / 4 - yoe / 100 + doy
  era * 146097 + doe - 719468

/-- Day number of the `Date` underlying a civil date (its midnight). -/
def civilDayIndex (c : CivilDate) : ℤ :=
  daysFromCivil c.year c.month c.day

/-- Day-of-week of a day number: 0 = Sunday … 6 = Saturday
(1970-01-01, day 0, was a Thursday, = 4). This is JS `Date.getDay`. -/
def dow (z : ℤ) : ℤ := (z + 4) % 7

/-- date-fns `startOfMonth(currentDate)`, as a day number: the first of the
month containing `currentDate`. -/
def startOfMonth (c : CivilDate) : ℤ := daysFromCivil c.year c.month 1

/-- date-fns `endOfMonth(currentDate)`, as a day number: the last day of the
month containing `currentDate` (the time-of-day 23:59:59.999 is irrelevant at
day granularity). -/
def endOfMonth (c : CivilDate) : ℤ :=
  daysFromCivil c.year c.month (daysInMonth c.year c.month)

/-- date-fns `startOfWeek` (default `weekStartsOn = 0`, Sunday) on a day
number: the Sunday on or before it. -/
def startOfWeek (z : ℤ) : ℤ := z - dow z

/-- date-fns `endOfWeek` (default Sunday week start) on a day number: the
Saturday on or after it. -/
def endOfWeek (z : ℤ) : ℤ := z + (6 - dow z)

/-- date-fns `eachDayOfInterval {start, end}` on day numbers: the list of
days from `s` to `e` inclusive. -/
def eachDayOfInterval (s e : ℤ) : List ℤ :=
  (List.range (e + 1 - s).toNat).map (fun (i : ℕ) => s + (i : ℤ))

/-- `CalendarEvent` from `types/calendar.ts`. `start` / `end` are JS `Date`s
at minute granularity; `none` models an Invalid Date. -/
structure CalendarEvent where
  id : String
  title : String
  type : String
  start : Option ℤ
  «end» : Option ℤ
  location : Option String
  courseId : String
deriving DecidableEq

/-- `BackendEvent` from `api.ts`, post-parsing: `start` is the result of
`new Date(event.start)` on the wire string (`none` = unparseable);
`«end»` is `none` when the wire `end` is `null` (or otherwise falsy), and
`some p` when it is a string parsing to `p`. -/
structure BackendEvent where
  id : String
  course_id : String
  title : String
  type : String
  start : Option ℤ
  «end» : Option (Option ℤ)
  location : Option String
deriving DecidableEq

/-- `mapBackendEventToCalendarEvent` from `types/calendar.ts`:
`end: event.end ? new Date(event.end) : new Date(event.start)`. -/
def mapBackendEventToCalendarEvent (event : BackendEvent) : CalendarEvent :=
  { id := event.id
    title := event.title
    type := event.type
    start := event.start
    «end» := match event.«end» with
      | some p => p
      | none => event.start
    location := event.location
    courseId := event.course_id }

/-- date-fns `isSameDay(eventStart, day)` where `day` is a (valid) grid day
number: false on an Invalid Date, otherwise compares the calendar days. -/
def isSameDayJS (t : Option ℤ) (day : ℤ) : Bool :=
  match t with
  | none => false
  | some m => m / 1440 == day

/-- `getEventsForDay` as defined identically in `CalendarGrid` and
`CalendarWeekView`: `events.filter(e => isSameDay(new Date(e.start), day))`. -/
def getEventsForDay (events : List CalendarEvent) (day : ℤ) : List CalendarEvent :=
  events.filter (fun event => isSameDayJS event.start day)

/-- Helper for `jsIncludes`: `sub` is a prefix of `s`. -/
def jsStartsWith : List Char → List Char → Bool
  | _, [] => true
  | [], _ :: _ => false
  | b :: st, a :: subt => a == b && jsStartsWith st subt

/-- JS `String.prototype.includes` on character lists:
`sub` occurs contiguously inside `s`. -/
def jsIncludes : List Char → List Char → Bool
  | [], sub => sub.isEmpty
  | b :: t, sub => jsStartsWith (b :: t) sub || jsIncludes t sub

/-- JS `String.prototype.toLowerCase` on character lists. -/
def jsToLowerCase (s : List Char) : List Char := s.map Char.toLower

/-- `jsStartsWith` decides Mathlib's list-prefix relation. -/
theorem jsStartsWith_iff (s sub : List Char) :
    jsStartsWith s sub = true ↔ sub <+: s := by
  induction sub generalizing s with
  | nil => cases s <;> simp [jsStartsWith]
  | cons a subt ih =>
    cases s with
    | nil =>
      simp only [jsStartsWith]
      constructor
      · intro h
        exact absurd h (by simp)
      · intro h
        exact absurd (List.prefix_nil.mp h) (by simp)
    | cons b st =>
      simp [jsStartsWith, Bool.and_eq_true, beq_iff_eq, ih,
        List.cons_prefix_cons]

/-- `jsIncludes` decides Mathlib's contiguous-sublist (infix) relation, so it
is a faithful model of JS `String.prototype.includes`. -/
theorem jsIncludes_iff (s sub : List Char) :
    jsIncludes s sub = true ↔ sub <:+: s := by
  induction s with
  | nil =>
    simp only [jsIncludes, List.isEmpty_iff]
    constructor
    · rintro rfl
      exact List.infix_rfl
    · intro h
      exact List.infix_nil.mp h
  | cons b st ih =>
    simp only [jsIncludes, Bool.or_eq_true, ih, jsStartsWith_iff]
    constructor
    · rintro (h | h)
      · exact h.isInfix
      · exact h.trans (List.suffix_cons b st).isInfix
    · intro h
      rcases List.infix_cons_iff.mp h with h | h
      · exact Or.inl h
      · exact Or.inr h

def kwClass : String := "class"
def kwLecture : String := "lecture"
def kwLab : String := "lab"
def kwMidterm : String := "midterm"
def kwTest : String := "test"
def kwFinal : String := "final"
def kwExam : String := "exam"
def kwAssignment : String := "assignment"
def kwHomework : String := "homework"
def kwQuiz : String := "quiz"

/-- The keywords `getEventColor` matches against, in match order. -/
def colorKeywords : List String :=
  [kwClass, kwLecture, kwLab, kwMidterm, kwTest, kwFinal, kwExam,
   kwAssignment, kwHomework, kwQuiz]

/-- The word "project", which the spec lists as a keyword but the source does
not match. -/
def projectWord : String := "project"

/-- `getEventColor` from `types/calendar.ts`: lowercase the label, then an
ordered chain of substring tests; first match wins, fallback "gray". -/
def getEventColor (type : String) : String :=
  let normalized := jsToLowerCase type.data
  if jsIncludes normalized kwClass.data || jsIncludes normalized kwLecture.data
      || jsIncludes normalized kwLab.data then "blue"
  else if jsIncludes normalized kwMidterm.data || jsIncludes normalized kwTest.data then "orange"
  else if jsIncludes normalized kwFinal.data || jsIncludes normalized kwExam.data then "red"
  else if jsIncludes normalized kwAssignment.data || jsIncludes normalized kwHomework.data then "purple"
  else if jsIncludes normalized kwQuiz.data then "green"
  else "gray"

example : (-7 : ℤ) / 2 = -4 := by decide
example : jsIncludes (jsToLowerCase ("Lecture".data)) kwLecture.data = true := by decide
example : getEventColor ("Quiz 3") = "green" := by decide
example : daysFromCivil 1970 1 1 = 0 := by decide
example : daysFromCivil 2026 2 1 = 20485 := by decide
example : dow 20485 = 0 := by decide
example : daysFromCivil 2025 3 10 = 20157 := by decide

/-- A month-view day cell, as rendered by `CalendarGrid`: its date, the
`isSameMonth(day, currentDate)` flag, the `getEventsForDay(day)` bucket, the
`dayEvents.slice(0, 3)` pills actually shown, and the "+n more" overflow
element that is rendered exactly when `dayEvents.length > 3`. -/
structure MonthCell where
  date : ℤ
  isCurrentMonth : Bool
  dayEvents : List CalendarEvent
  visibleEvents : List CalendarEvent
  moreCount : Option ℕ
deriving DecidableEq

/-- One day cell of the month grid (the body of `days.map` in
`CalendarGrid`). -/
def mkMonthCell (c : CivilDate) (events : List CalendarEvent) (day : ℤ) : MonthCell :=
  let dayEvents := getEventsForDay events day
  { date := day
    isCurrentMonth := decide (startOfMonth c ≤ day ∧ day ≤ endOfMonth c)
    dayEvents := dayEvents
    visibleEvents := dayEvents.take 3
    moreCount := if 3 < dayEvents.length then some (dayEvents.length - 3) else none }

/-- The month grid computed by `CalendarGrid`:
`eachDayOfInterval({start: startOfWeek(startOfMonth(currentDate)),
end: endOfWeek(endOfMonth(currentDate))})`, one rendered cell per day. -/
def computeMonthGrid (c : CivilDate) (events : List CalendarEvent) : List MonthCell :=
  let monthStart := startOfMonth c
  let monthEnd := endOfMonth c
  let calendarStart := startOfWeek monthStart
  let calendarEnd := endOfWeek monthEnd
  (eachDayOfInterval calendarStart calendarEnd).map (mkMonthCell c events)

/-- `HOUR_HEIGHT` from `CalendarWeekView` (pixels per hour). -/
def HOUR_HEIGHT : ℚ := 60

/-- date-fns `startOfDay` on a minute timestamp: midnight of the same day. -/
def startOfDay (t : ℤ) : ℤ := 1440 * (t / 1440)

/-- `getEventPosition` from `CalendarWeekView`:
`top = differenceInMinutes(start, startOfDay(start)) / 60 * HOUR_HEIGHT`,
`height = Math.max(differenceInMinutes(end, start) / 60 * HOUR_HEIGHT, 30)`.
`none` models the JS `NaN` that an Invalid Date propagates into the
corresponding coordinate (`Math.max(NaN, 30)` is `NaN`). -/
def getEventPosition (e : CalendarEvent) : Option ℚ × Option ℚ :=
  match e.start with
  | none => (none, none)
  | some s =>
    let dayStart := startOfDay s
    let minutesFromStart : ℤ := s - dayStart
    let top : ℚ := (minutesFromStart : ℚ) / 60 * HOUR_HEIGHT
    let height : Option ℚ := match e.«end» with
      | none => none
      | some en => some (max (((en - s : ℤ) : ℚ) / 60 * HOUR_HEIGHT) 30)
    (some top, height)

/-- A week-view day column, as rendered by `CalendarWeekView`: its date and
the `getEventsForDay(day)` bucket, each event paired with its
`getEventPosition` top/height. -/
structure WeekDayCell where
  date : ℤ
  events : List (CalendarEvent × (Option ℚ × Option ℚ))
deriving DecidableEq

/-- The week grid computed by `CalendarWeekView`:
`eachDayOfInterval({start: startOfWeek(currentDate), end: endOfWeek(currentDate)})`,
one positioned column per day. -/
def computeWeekGrid (c : CivilDate) (events : List CalendarEvent) : List WeekDayCell :=
  let z := civilDayIndex c
  let weekStart := startOfWeek z
  let weekEnd := endOfWeek z
  (eachDayOfInterval weekStart weekEnd).map (fun day =>
    { date := day
      events := (getEventsForDay events day).map (fun e => (e, getEventPosition e)) })

/-- Minute timestamp of a given wall-clock time on a civil date
(test-data helper, not part of the source). -/
def mkTimestamp (y : ℤ) (m d : ℕ) (minutesOfDay : ℤ) : ℤ :=
  daysFromCivil y m d * 1440 + minutesOfDay

/-- `daysFromCivil` is affine in the day-of-month: day `d` of a month is
`d - 1` days after the first of that month. -/
theorem daysFromCivil_day (y : ℤ) (m d : ℕ) :
    daysFromCivil y m d = daysFromCivil y m 1 + (d : ℤ) - 1 := by
  simp only [daysFromCivil]
  split_ifs <;> omega

/-- Gregorian month lengths all lie between 28 and 31. -/
theorem daysInMonth_bounds (y : ℤ) (m : ℕ) :
    28 ≤ daysInMonth y m ∧ daysInMonth y m ≤ 31 := by
  unfold daysInMonth
  split_ifs <;> omega

/-- The last day of a month is `daysInMonth - 1` days after the first. -/
theorem endOfMonth_eq (c : CivilDate) :
    endOfMonth c = startOfMonth c + (daysInMonth c.year c.month : ℤ) - 1 := by
  unfold endOfMonth startOfMonth
  rw [daysFromCivil_day]

theorem eachDayOfInterval_length (s e : ℤ) :
    (eachDayOfInterval s e).length = (e + 1 - s).toNat := by
  unfold eachDayOfInterval
  rw [List.length_map, List.length_range]

theorem eachDayOfInterval_get (s e : ℤ) (i : ℕ)
    (h : i < (eachDayOfInterval s e).length) :
    (eachDayOfInterval s e).get ⟨i, h⟩ = s + i := by
  unfold eachDayOfInterval
  simp only [List.get_eq_getElem, List.getElem_map, List.getElem_range]

theorem mem_eachDayOfInterval (s e z : ℤ) :
    z ∈ eachDayOfInterval s e ↔ s ≤ z ∧ z ≤ e := by
  unfold eachDayOfInterval
  rw [List.mem_map]
  constructor
  · rintro ⟨i, hi, rfl⟩
    rw [List.mem_range] at hi
    omega
  · rintro ⟨h1, h2⟩
    refine ⟨(z - s).toNat, ?_, ?_⟩
    · rw [List.mem_range]
      omega
    · omega

/-- `List.get` through `List.map`, in the `get` form used below. -/
theorem list_get_map {α β : Type} (f : α → β) (l : List α) (i : ℕ)
    (h : i < (l.map f).length) :
    (l.map f).get ⟨i, h⟩ = f (l.get ⟨i, by simpa using h⟩) := by
  simp only [List.get_eq_getElem, List.getElem_map]

/-- The month grid has one cell per day of the padded interval. -/
theorem computeMonthGrid_length (c : CivilDate) (events : List CalendarEvent) :
    (computeMonthGrid c events).length =
      (endOfWeek (endOfMonth c) + 1 - startOfWeek (startOfMonth c)).toNat := by
  simp only [computeMonthGrid]
  rw [List.length_map, eachDayOfInterval_length]

/-- Size of the month grid: a whole number of weeks, between 4 and 6 of them.
Shared by the C1 and C9 theorems. -/
theorem monthGrid_length_bounds (c : CivilDate) (events : List CalendarEvent) :
    7 ∣ (computeMonthGrid c events).length ∧
      28 ≤ (computeMonthGrid c events).length ∧
      (computeMonthGrid c events).length ≤ 42 := by
  have hb := daysInMonth_bounds c.year c.month
  rw [computeMonthGrid_length, endOfMonth_eq]
  unfold endOfWeek startOfWeek dow
  omega

/-- Cell `i` of the month grid is the rendered cell of the `i`-th day after
the padded interval's start. -/
theorem computeMonthGrid_get (c : CivilDate) (events : List CalendarEvent) (i : ℕ)
    (h : i < (computeMonthGrid c events).length) :
    (computeMonthGrid c events).get ⟨i, h⟩ =
      mkMonthCell c events (startOfWeek (startOfMonth c) + i) := by
  simp only [computeMonthGrid] at h ⊢
  rw [list_get_map, eachDayOfInterval_get]

example : (computeMonthGrid ⟨2026, 2, 10⟩ []).length = 28 := by decide
example : (computeMonthGrid ⟨2025, 3, 10⟩ []).length = 42 := by decide

/-- Membership in a day bucket: in the filtered list iff in the input list
and starting on that day. -/
theorem mem_getEventsForDay (events : List CalendarEvent) (e : CalendarEvent) (day : ℤ) :
    e ∈ getEventsForDay events day ↔ e ∈ events ∧ isSameDayJS e.start day = true := by
  simp [getEventsForDay, List.mem_filter]

/-- `isSameDayJS` holds exactly on a valid start whose calendar day is `day`. -/
theorem isSameDayJS_iff (t : Option ℤ) (day : ℤ) :
    isSameDayJS t day = true ↔ ∃ s : ℤ, t = some s ∧ s / 1440 = day := by
  cases t with
  | none => simp [isSameDayJS]
  | some m => simp [isSameDayJS]

/-- The current-month flag marks exactly the days between the first and last
day of `currentDate`'s month. -/
theorem monthGrid_currentMonth_iff (c : CivilDate) (events : List CalendarEvent) (z : ℤ) :
    (∃ cell ∈ computeMonthGrid c events, cell.isCurrentMonth = true ∧ cell.date = z) ↔
      startOfMonth c ≤ z ∧ z ≤ endOfMonth c := by
  constructor
  · rintro ⟨cell, hmem, hflag, hdate⟩
    simp only [computeMonthGrid, List.mem_map] at hmem
    obtain ⟨day, hday, rfl⟩ := hmem
    simp only [mkMonthCell, decide_eq_true_eq] at hflag hdate
    rw [← hdate]
    exact hflag
  · rintro ⟨h1, h2⟩
    have hws : startOfWeek (startOfMonth c) ≤ startOfMonth c := by
      unfold startOfWeek dow
      omega
    have hwe : endOfMonth c ≤ endOfWeek (endOfMonth c) := by
      unfold endOfWeek dow
      omega
    refine ⟨mkMonthCell c events z, ?_, ?_, rfl⟩
    · simp only [computeMonthGrid, List.mem_map]
      exact ⟨z, (mem_eachDayOfInterval _ _ _).mpr ⟨by omega, by omega⟩, rfl⟩
    · simp only [mkMonthCell, decide_eq_true_eq]
      exact ⟨h1, h2⟩

/-- The days between the first and last of `currentDate`'s month are exactly
the day numbers of the calendar days `1 .. daysInMonth` of that month. -/
theorem month_interval_iff (c : CivilDate) (z : ℤ) :
    (startOfMonth c ≤ z ∧ z ≤ endOfMonth c) ↔
      ∃ d : ℕ, 1 ≤ d ∧ d ≤ daysInMonth c.year c.month ∧
        z = daysFromCivil c.year c.month d := by
  rw [endOfMonth_eq]
  constructor
  · rintro ⟨h1, h2⟩
    refine ⟨(z - startOfMonth c + 1).toNat, by omega, by omega, ?_⟩
    rw [daysFromCivil_day]
    unfold startOfMonth at h1 h2 ⊢
    omega
  · rintro ⟨d, hd1, hd2, rfl⟩
    rw [daysFromCivil_day]
    unfold startOfMonth
    constructor
    · omega
    · rw [daysFromCivil_day]
      omega

/-- C9: for every `currentDate` and every event list, the number of cells in
the month grid built by `CalendarGrid` is a multiple of 7 (whole weeks from
the week of the 1st through the week of the last day), at least 28 and at
most 42. -/
theorem monthGrid_whole_weeks (c : CivilDate) (events : List CalendarEvent) :
    7 ∣ (computeMonthGrid c events).length ∧
      28 ≤ (computeMonthGrid c events).length ∧
      (computeMonthGrid c events).length ≤ 42 :=
  monthGrid_length_bounds c events

/-- C1 counterexample: for February 2026 (which spans exactly four
Sunday-to-Saturday weeks) `CalendarGrid` produces 28 cells, not the 42 the
claim asserts for every `currentDate`. -/
theorem monthGrid_feb2026_not_42 :
    (computeMonthGrid ⟨2026, 2, 10⟩ []).length = 28 ∧
      (computeMonthGrid ⟨2026, 2, 10⟩ []).length ≠ 42 := by decide

/-- C1 (amended): for every `currentDate` and event list, the month grid has
between 28 and 42 cells (a whole number of weeks, not always 42), its cell
dates increase strictly by one day, and the set of cells flagged as belonging
to the current month is exactly the set of calendar days of the month
containing `currentDate`. -/
theorem monthGrid_shape (c : CivilDate) (events : List CalendarEvent) :
    (7 ∣ (computeMonthGrid c events).length ∧
      28 ≤ (computeMonthGrid c events).length ∧
      (computeMonthGrid c events).length ≤ 42) ∧
    (∀ (i : ℕ) (h : i + 1 < (computeMonthGrid c events).length),
      ((computeMonthGrid c events).get ⟨i + 1, h⟩).date =
        ((computeMonthGrid c events).get ⟨i, Nat.lt_of_succ_lt h⟩).date + 1) ∧
    (∀ z : ℤ,
      (∃ cell ∈ computeMonthGrid c events, cell.isCurrentMonth = true ∧ cell.date = z) ↔
        ∃ d : ℕ, 1 ≤ d ∧ d ≤ daysInMonth c.year c.month ∧
          z = daysFromCivil c.year c.month d) := by
  refine ⟨monthGrid_length_bounds c events, ?_, ?_⟩
  · intro i h
    rw [computeMonthGrid_get, computeMonthGrid_get]
    simp only [mkMonthCell]
    push_cast
    ring
  · intro z
    rw [monthGrid_currentMonth_iff, month_interval_iff]

/-- Witness for C1's amended theorem at March 2025: consecutive cells differ
by one day. -/
theorem monthGrid_shape_witness :
    ((computeMonthGrid ⟨2025, 3, 10⟩ []).get ⟨0 + 1, by decide⟩).date =
      ((computeMonthGrid ⟨2025, 3, 10⟩ []).get ⟨0, by decide⟩).date + 1 :=
  (monthGrid_shape ⟨2025, 3, 10⟩ []).2.1 0 (by decide)

/-- C2: for every event list and every cell of the month grid, an event is
placed in that cell's bucket iff it is an input event whose `start` is valid
and falls (ignoring time of day) on the cell's date; consequently no event is
placed in two different cells. -/
theorem monthGrid_placement (c : CivilDate) (events : List CalendarEvent)
    (e : CalendarEvent) :
    (∀ (i : ℕ) (hi : i < (computeMonthGrid c events).length),
      (e ∈ ((computeMonthGrid c events).get ⟨i, hi⟩).dayEvents ↔
        e ∈ events ∧ ∃ s : ℤ, e.start = some s ∧
          s / 1440 = ((computeMonthGrid c events).get ⟨i, hi⟩).date)) ∧
    (∀ (i j : ℕ) (hi : i < (computeMonthGrid c events).length)
        (hj : j < (computeMonthGrid c events).length),
      e ∈ ((computeMonthGrid c events).get ⟨i, hi⟩).dayEvents →
        e ∈ ((computeMonthGrid c events).get ⟨j, hj⟩).dayEvents → i = j) := by
  constructor
  · intro i hi
    rw [computeMonthGrid_get]
    simp only [mkMonthCell]
    rw [mem_getEventsForDay, isSameDayJS_iff]
  · intro i j hi hj h1 h2
    rw [computeMonthGrid_get] at h1 h2
    simp only [mkMonthCell] at h1 h2
    rw [mem_getEventsForDay, isSameDayJS_iff] at h1 h2
    obtain ⟨-, s1, hs1, hd1⟩ := h1
    obtain ⟨-, s2, hs2, hd2⟩ := h2
    rw [hs1] at hs2
    obtain rfl : s1 = s2 := Option.some_injective ℤ hs2
    omega

/-- The spec scenario's event: "Midterm 1", 2025-03-10T14:00 to 15:30. -/
def midtermEvent : CalendarEvent :=
  { id := "evt-1"
    title := "Midterm 1"
    type := "Midterm"
    start := some (mkTimestamp 2025 3 10 840)
    «end» := some (mkTimestamp 2025 3 10 930)
    location := none
    courseId := "course-1" }

/-- Witness for C2 at the spec scenario: on the March 2025 grid the midterm
event lands in the cell whose date is day number 20157 = 2025-03-10. -/
theorem monthGrid_placement_witness :
    midtermEvent ∈
        ((computeMonthGrid ⟨2025, 3, 10⟩ [midtermEvent]).get ⟨15, by decide⟩).dayEvents ∧
      ((computeMonthGrid ⟨2025, 3, 10⟩ [midtermEvent]).get ⟨15, by decide⟩).date =
        daysFromCivil 2025 3 10 :=
  ⟨((monthGrid_placement ⟨2025, 3, 10⟩ [midtermEvent] midtermEvent).1 15
        (by decide)).mpr
      ⟨by decide, mkTimestamp 2025 3 10 840, rfl, by decide⟩,
    by decide⟩

/-- C3: every month cell surfaces exactly the first three bucketed events (in
input order, the bucket being an in-order sublist of the input) and reports an
overflow count exactly when more than three qualify, the count being the
number of hidden events. -/
theorem monthGrid_overflow (c : CivilDate) (events : List CalendarEvent) :
    ∀ cell ∈ computeMonthGrid c events,
      cell.dayEvents.Sublist events ∧
      cell.visibleEvents = cell.dayEvents.take 3 ∧
      (cell.dayEvents.length ≤ 3 →
        cell.visibleEvents = cell.dayEvents ∧ cell.moreCount = none) ∧
      (3 < cell.dayEvents.length →
        cell.visibleEvents.length = 3 ∧
          cell.moreCount = some (cell.dayEvents.length - 3)) := by
  intro cell hmem
  simp only [computeMonthGrid, List.mem_map] at hmem
  obtain ⟨day, -, rfl⟩ := hmem
  have hde : (mkMonthCell c events day).dayEvents = getEventsForDay events day := rfl
  have hve : (mkMonthCell c events day).visibleEvents =
      (getEventsForDay events day).take 3 := rfl
  have hmc : (mkMonthCell c events day).moreCount =
      (if 3 < (getEventsForDay events day).length
        then some ((getEventsForDay events day).length - 3) else none) := rfl
  rw [hde, hve, hmc]
  refine ⟨List.filter_sublist events, rfl, ?_, ?_⟩
  · intro hle
    rw [if_neg (by omega)]
    exact ⟨List.take_of_length_le hle, rfl⟩
  · intro hlt
    rw [if_pos hlt, List.length_take]
    exact ⟨by omega, rfl⟩

/-- Five events on 2025-03-10 (the "+2 more" scenario data). -/
def manyEvents : List CalendarEvent :=
  [{ id := "m1", title := "A", type := "Lecture",
     start := some (mkTimestamp 2025 3 10 480), «end» := some (mkTimestamp 2025 3 10 540),
     location := none, courseId := "c" },
   { id := "m2", title := "B", type := "Lab",
     start := some (mkTimestamp 2025 3 10 540), «end» := some (mkTimestamp 2025 3 10 600),
     location := none, courseId := "c" },
   { id := "m3", title := "C", type := "Quiz",
     start := some (mkTimestamp 2025 3 10 600), «end» := some (mkTimestamp 2025 3 10 660),
     location := none, courseId := "c" },
   { id := "m4", title := "D", type := "Assignment",
     start := some (mkTimestamp 2025 3 10 660), «end» := some (mkTimestamp 2025 3 10 720),
     location := none, courseId := "c" },
   { id := "m5", title := "E", type := "Final",
     start := some (mkTimestamp 2025 3 10 720), «end» := some (mkTimestamp 2025 3 10 780),
     location := none, courseId := "c" }]

/-- Witness for C3: with five same-day events the 2025-03-10 cell shows 3
event pills and reports "+2 more". -/
theorem monthGrid_overflow_witness :
    ((computeMonthGrid ⟨2025, 3, 10⟩ manyEvents).get ⟨15, by decide⟩).visibleEvents.length = 3 ∧
      ((computeMonthGrid ⟨2025, 3, 10⟩ manyEvents).get ⟨15, by decide⟩).moreCount = some 2 :=
  (monthGrid_overflow ⟨2025, 3, 10⟩ manyEvents
      ((computeMonthGrid ⟨2025, 3, 10⟩ manyEvents).get ⟨15, by decide⟩)
      (List.get_mem _ _ _)).2.2.2 (by decide)

/-- C4 counterexample: the code does not realise seven distinct categories:
"lab" and "lecture" collapse into the same category ("blue"), and "project"
is not matched by any rule — it falls through to the fallback ("gray")
instead of joining "assignment" ("purple"). -/
theorem getEventColor_merges_lab_skips_project :
    getEventColor kwLab = getEventColor kwLecture ∧
      getEventColor kwLab = "blue" ∧
      getEventColor projectWord = "gray" ∧
      getEventColor kwAssignment = "purple" := by decide

/-- C4 (amended): `getEventColor` is deterministic and total, mapping every
string (the empty string included) to exactly one of SIX fixed categories —
blue (class/lecture/lab), orange (midterm/test), red (final/exam), purple
(assignment/homework), green (quiz), gray (fallback) — by case-insensitive
substring matching against an ordered rule list where the first match wins. -/
theorem getEventColor_total_six (s : String) :
    getEventColor s ∈ (["blue", "orange", "red", "purple", "green", "gray"] : List String) := by
  simp only [getEventColor]
  split_ifs <;> simp

/-- C10: a type label containing "project" (in any letter case) but none of
the ten matched keywords (class, lecture, lab, midterm, test, final, exam,
assignment, homework, quiz) falls through every rule to "gray", the fallback
category. -/
theorem getEventColor_project_fallback (s : String)
    (hp : jsIncludes (jsToLowerCase s.data) projectWord.data = true)
    (hk : ∀ k ∈ colorKeywords, jsIncludes (jsToLowerCase s.data) k.data = false) :
    getEventColor s = "gray" := by
  have h1 := hk kwClass (by simp [colorKeywords])
  have h2 := hk kwLecture (by simp [colorKeywords])
  have h3 := hk kwLab (by simp [colorKeywords])
  have h4 := hk kwMidterm (by simp [colorKeywords])
  have h5 := hk kwTest (by simp [colorKeywords])
  have h6 := hk kwFinal (by simp [colorKeywords])
  have h7 := hk kwExam (by simp [colorKeywords])
  have h8 := hk kwAssignment (by simp [colorKeywords])
  have h9 := hk kwHomework (by simp [colorKeywords])
  have h10 := hk kwQuiz (by simp [colorKeywords])
  simp [getEventColor, h1, h2, h3, h4, h5, h6, h7, h8, h9, h10]

/-- Witness for C10 at the label "Project". -/
theorem getEventColor_project_fallback_witness :
    getEventColor ("Project") = "gray" :=
  getEventColor_project_fallback ("Project") (by decide) (by decide)

/-- `getEventPosition` on a valid start: the top offset in pixels equals the
minutes from midnight to `start` (at `HOUR_HEIGHT = 60` one pixel is one
minute), whatever the `end` field holds. -/
theorem getEventPosition_top (e : CalendarEvent) (s : ℤ) (hs : e.start = some s) :
    (getEventPosition e).1 = some ((s % 1440 : ℤ) : ℚ) := by
  have hmin : (s - startOfDay s : ℤ) = s % 1440 := by
    unfold startOfDay
    omega
  cases hen : e.«end» with
  | none =>
    simp only [getEventPosition, hs, hen, hmin, HOUR_HEIGHT]
    rw [div_mul_cancel₀ _ (by norm_num : (60 : ℚ) ≠ 0)]
  | some en =>
    simp only [getEventPosition, hs, hen, hmin, HOUR_HEIGHT]
    rw [div_mul_cancel₀ _ (by norm_num : (60 : ℚ) ≠ 0)]

/-- `getEventPosition` on a valid start and end: the block height in pixels is
the minute duration `end - start`, clamped below at 30. -/
theorem getEventPosition_height (e : CalendarEvent) (s en : ℤ)
    (hs : e.start = some s) (hen : e.«end» = some en) :
    (getEventPosition e).2 = some (max ((en - s : ℤ) : ℚ) 30) := by
  simp only [getEventPosition, hs, hen, HOUR_HEIGHT]
  rw [div_mul_cancel₀ _ (by norm_num : (60 : ℚ) ≠ 0)]

/-- C5: the week grid is exactly the 7 consecutive days of the Sunday-start
week containing `currentDate`; every placed event with a valid start gets a
vertical offset equal to its minutes from midnight, and with a valid end a
height of `end - start` minutes clamped below at 30, so `end <= start` yields
the 30-minute minimum; a backend event with absent `end` gets `end = start`
and hence the minimum height. -/
theorem weekGrid_spec (c : CivilDate) (events : List CalendarEvent) :
    (computeWeekGrid c events).length = 7 ∧
    (∀ (i : ℕ) (hi : i < (computeWeekGrid c events).length),
      ((computeWeekGrid c events).get ⟨i, hi⟩).date = startOfWeek (civilDayIndex c) + i) ∧
    dow (startOfWeek (civilDayIndex c)) = 0 ∧
    (startOfWeek (civilDayIndex c) ≤ civilDayIndex c ∧
      civilDayIndex c ≤ startOfWeek (civilDayIndex c) + 6) ∧
    (∀ day ∈ computeWeekGrid c events, ∀ pr ∈ day.events, ∀ s : ℤ,
      pr.1.start = some s →
        pr.2.1 = some ((s % 1440 : ℤ) : ℚ) ∧
        (∀ en : ℤ, pr.1.«end» = some en →
          pr.2.2 = some (max ((en - s : ℤ) : ℚ) 30) ∧
          (en ≤ s → pr.2.2 = some 30))) ∧
    (∀ b : BackendEvent, b.«end» = none →
      (mapBackendEventToCalendarEvent b).«end» = b.start ∧
      (∀ s : ℤ, b.start = some s →
        (getEventPosition (mapBackendEventToCalendarEvent b)).2 = some 30)) := by
  refine ⟨?_, ?_, ?_, ?_, ?_, ?_⟩
  · simp only [computeWeekGrid]
    rw [List.length_map, eachDayOfInterval_length]
    unfold endOfWeek startOfWeek dow
    omega
  · intro i hi
    simp only [computeWeekGrid] at hi ⊢
    rw [list_get_map, eachDayOfInterval_get]
  · unfold startOfWeek dow
    omega
  · unfold startOfWeek dow
    omega
  · intro day hday pr hpr s hs
    simp only [computeWeekGrid, List.mem_map] at hday
    obtain ⟨d0, -, rfl⟩ := hday
    have hpr' : pr ∈ (getEventsForDay events d0).map
        (fun e => (e, getEventPosition e)) := hpr
    rw [List.mem_map] at hpr'
    obtain ⟨e, -, rfl⟩ := hpr'
    refine ⟨getEventPosition_top e s hs, ?_⟩
    intro en hen
    constructor
    · show (getEventPosition e).2 = _
      exact getEventPosition_height e s en hs hen
    · intro hle
      show (getEventPosition e).2 = some 30
      rw [getEventPosition_height e s en hs hen]
      have hcast : ((en - s : ℤ) : ℚ) ≤ 30 := by
        have : ((en - s : ℤ) : ℚ) ≤ 0 := by
          exact_mod_cast (by omega : (en - s : ℤ) ≤ 0)
        linarith
      rw [max_eq_right hcast]
  · intro b hb
    have hend : (mapBackendEventToCalendarEvent b).«end» = b.start := by
      simp [mapBackendEventToCalendarEvent, hb]
    refine ⟨hend, ?_⟩
    intro s hs
    have hs' : (mapBackendEventToCalendarEvent b).start = some s := hs
    have hen' : (mapBackendEventToCalendarEvent b).«end» = some s := by
      rw [hend, hs]
    rw [getEventPosition_height _ s s hs' hen']
    have : ((s - s : ℤ) : ℚ) ≤ 30 := by
      rw [sub_self]
      norm_num
    rw [max_eq_right this]

/-- A valid 10:00-11:30 lecture on Wednesday 2025-03-12 (week-view witness
data). -/
def morningEvent : CalendarEvent :=
  { id := "w1"
    title := "Lecture 5"
    type := "Lecture"
    start := some (mkTimestamp 2025 3 12 600)
    «end» := some (mkTimestamp 2025 3 12 690)
    location := none
    courseId := "c" }

/-- Witness for C5: the week of 2025-03-12 has 7 columns and the 10:00 event
is offset by 600 minutes from midnight. -/
theorem weekGrid_spec_witness :
    (computeWeekGrid ⟨2025, 3, 12⟩ [morningEvent]).length = 7 ∧
      (morningEvent, getEventPosition morningEvent).2.1 =
        some ((mkTimestamp 2025 3 12 600 % 1440 : ℤ) : ℚ) := by
  have h := weekGrid_spec ⟨2025, 3, 12⟩ [morningEvent]
  refine ⟨h.1, ?_⟩
  have h3 : 3 < (computeWeekGrid ⟨2025, 3, 12⟩ [morningEvent]).length := by
    rw [h.1]
    omega
  have hmem : (morningEvent, getEventPosition morningEvent) ∈
      ((computeWeekGrid ⟨2025, 3, 12⟩ [morningEvent]).get ⟨3, h3⟩).events := by
    show (morningEvent, getEventPosition morningEvent) ∈
      (getEventsForDay [morningEvent]
          (startOfWeek (civilDayIndex ⟨2025, 3, 12⟩) + 3)).map
        (fun e => (e, getEventPosition e))
    exact List.mem_map.mpr ⟨morningEvent, by decide, rfl⟩
  exact (h.2.2.2.2.1 _ (List.get_mem _ _ _)
    (morningEvent, getEventPosition morningEvent) hmem
    (mkTimestamp 2025 3 12 600) rfl).1

/-- C8: week-view vertical placement is monotonic — for two events whose
valid starts fall on the same calendar day with the first strictly earlier,
the first's computed top offset is at most the second's. -/
theorem weekView_offset_monotonic (e1 e2 : CalendarEvent) (s1 s2 : ℤ)
    (h1 : e1.start = some s1) (h2 : e2.start = some s2)
    (hday : s1 / 1440 = s2 / 1440) (hlt : s1 < s2) :
    ∃ t1 t2 : ℚ, (getEventPosition e1).1 = some t1 ∧
      (getEventPosition e2).1 = some t2 ∧ t1 ≤ t2 := by
  refine ⟨((s1 % 1440 : ℤ) : ℚ), ((s2 % 1440 : ℤ) : ℚ),
    getEventPosition_top e1 s1 h1, getEventPosition_top e2 s2 h2, ?_⟩
  exact_mod_cast (by omega : s1 % 1440 ≤ s2 % 1440)

/-- 10:00 event on day 0 (C8 witness data). -/
def earlyEvent : CalendarEvent :=
  { id := "a", title := "A", type := "Lecture", start := some 600,
    «end» := some 660, location := none, courseId := "c" }

/-- 11:00 event on day 0 (C8 witness data). -/
def lateEvent : CalendarEvent :=
  { id := "b", title := "B", type := "Lab", start := some 660,
    «end» := some 720, location := none, courseId := "c" }

/-- Witness for C8 with a 10:00 and an 11:00 event on the same day. -/
theorem weekView_offset_monotonic_witness :
    ∃ t1 t2 : ℚ, (getEventPosition earlyEvent).1 = some t1 ∧
      (getEventPosition lateEvent).1 = some t2 ∧ t1 ≤ t2 :=
  weekView_offset_monotonic earlyEvent lateEvent 600 660 rfl rfl
    (by decide) (by decide)

/-- An event whose wire timestamps failed to parse: both `Date`s invalid
(C6 data). -/
def invalidEvent : CalendarEvent :=
  { id := "bad"
    title := "Broken"
    type := "Lecture"
    start := none
    «end» := none
    location := none
    courseId := "c" }

/-- An event with a valid start (2025-03-10T14:00) but an unparseable end
(C6 data). -/
def halfInvalidEvent : CalendarEvent :=
  { id := "half"
    title := "No End"
    type := "Lecture"
    start := some (mkTimestamp 2025 3 10 840)
    «end» := none
    location := none
    courseId := "c" }

/-- C6 counterexample, showing both failing parts of the claim on concrete
inputs. (a) An event with a valid start but an invalid (unparseable) end is
NOT excluded: `getEventsForDay` filters on `start` alone, so the event is
placed in its 2025-03-10 bucket, and the week view gives it an undefined
(`NaN`) height rather than dropping it. (b) No count of excluded events is
surfaced: the month grid for `[invalidEvent]` (one event excluded) equals the
month grid for `[]` (zero events excluded), so the caller-visible output
carries no such count. -/
theorem invalid_end_placed_and_no_count :
    halfInvalidEvent ∈ getEventsForDay [halfInvalidEvent] 20157 ∧
      (getEventPosition halfInvalidEvent).2 = none ∧
      computeMonthGrid ⟨2025, 3, 10⟩ [invalidEvent] =
        computeMonthGrid ⟨2025, 3, 10⟩ [] := by
  decide

/-- C6 (amended): the layout functions are total and never throw; an event
with an invalid (unparseable) start is excluded from every day bucket and
both grids equal the grids computed from the valid-start events alone; an
event with a valid start is placed by its start alone — an invalid end does
not exclude it from its day bucket, it only makes the week-view height
undefined (`NaN`); and no count of the excluded events is surfaced to the
caller. -/
theorem invalid_events_excluded :
    (∀ (events : List CalendarEvent) (day : ℤ) (e : CalendarEvent),
      e.start = none → e ∉ getEventsForDay events day) ∧
    (∀ (events : List CalendarEvent) (day : ℤ) (e : CalendarEvent) (s : ℤ),
      e.start = some s →
        (e ∈ getEventsForDay events day ↔ e ∈ events ∧ s / 1440 = day)) ∧
    (∀ (e : CalendarEvent) (s : ℤ), e.start = some s → e.«end» = none →
      (getEventPosition e).2 = none) ∧
    (∀ (c : CivilDate) (events : List CalendarEvent),
      computeMonthGrid c events =
          computeMonthGrid c (events.filter (fun e => e.start.isSome)) ∧
        computeWeekGrid c events =
          computeWeekGrid c (events.filter (fun e => e.start.isSome))) := by
  have hceq : ∀ (events : List CalendarEvent) (day : ℤ),
      getEventsForDay events day =
        getEventsForDay (events.filter (fun e => e.start.isSome)) day := by
    intro events day
    unfold getEventsForDay
    rw [List.filter_filter]
    apply List.filter_congr
    intro e he
    cases h : e.start <;> simp [isSameDayJS, h]
  refine ⟨?_, ?_, ?_, ?_⟩
  · intro events day e hnone hmem
    rw [mem_getEventsForDay] at hmem
    have := hmem.2
    rw [hnone] at this
    simp [isSameDayJS] at this
  · intro events day e s hs
    rw [mem_getEventsForDay, isSameDayJS_iff, hs]
    simp
  · intro e s hs hend
    simp [getEventPosition, hs, hend]
  · intro c events
    constructor
    · unfold computeMonthGrid
      apply List.map_congr_left
      intro day _
      unfold mkMonthCell
      rw [hceq events day]
    · unfold computeWeekGrid
      apply List.map_congr_left
      intro day _
      rw [hceq events day]

/-- Witness for C6's amended theorem on the fully invalid event and the
valid-start/invalid-end event. -/
theorem invalid_events_excluded_witness :
    invalidEvent ∉ getEventsForDay [invalidEvent] 20157 ∧
      halfInvalidEvent ∈ getEventsForDay [halfInvalidEvent] 20157 ∧
      (getEventPosition halfInvalidEvent).2 = none ∧
      computeMonthGrid ⟨2025, 3, 10⟩ [invalidEvent] =
        computeMonthGrid ⟨2025, 3, 10⟩
          ([invalidEvent].filter (fun e => e.start.isSome)) :=
  ⟨invalid_events_excluded.1 [invalidEvent] 20157 invalidEvent rfl,
    (invalid_events_excluded.2.1 [halfInvalidEvent] 20157 halfInvalidEvent
        (mkTimestamp 2025 3 10 840) rfl).mpr ⟨by decide, by decide⟩,
    invalid_events_excluded.2.2.1 halfInvalidEvent
      (mkTimestamp 2025 3 10 840) rfl rfl,
    (invalid_events_excluded.2.2.2 ⟨2025, 3, 10⟩ [invalidEvent]).1⟩
